import Mathlib

/-!
Verification of the file-based IPC core of the claude-code-artifacts repository.

The definitions below are shallow embeddings of the JavaScript/TypeScript
source (`hooks/artifact-bridge.js` and `src/communication/IPCClient.ts`):
pure functions are translated directly, stateful loops become explicit state
passing, directories become association lists from filename to content, and
JavaScript strings are modelled as Lean `String`s manipulated through their
character lists (all operations are executable and kernel-reducible).
Clock reads (`Date.now()`) become explicit `Nat` parameters, and fresh-id
generation is abstracted by an explicit generator parameter.
-/

/-! ### JavaScript string primitives

Executable models of the string operations the source uses.  They operate on
`String.toList` so that every concrete instance reduces inside the kernel.
-/

/-- JavaScript whitespace characters relevant to `String.prototype.trim`
for the inputs of this development (space, tab, CR, LF). -/
def isJsWhitespace (c : Char) : Bool :=
  c = ' ' || c = '\t' || c = '\n' || c = '\r'

/-- Model of `s.trim()`: remove leading and trailing whitespace. -/
def jsTrim (s : String) : String :=
  String.mk (((s.toList.dropWhile isJsWhitespace).reverse.dropWhile isJsWhitespace).reverse)

/-- Model of `s.startsWith(pre)`. -/
def jsStartsWith (s pre : String) : Bool :=
  pre.toList.isPrefixOf s.toList

/-- Model of `s.endsWith(suf)`. -/
def jsEndsWith (s suf : String) : Bool :=
  suf.toList.isSuffixOf s.toList

/-- Model of `s.substring(n)` (drop the first `n` code units). -/
def jsDrop (s : String) (n : Nat) : String :=
  String.mk (s.toList.drop n)

/-- Model of `s.substring(0, n)` (keep the first `n` code units). -/
def jsTake (s : String) (n : Nat) : String :=
  String.mk (s.toList.take n)

/-- Model of `s.includes(":")`: the string contains a colon character. -/
def containsColon (s : String) : Bool :=
  s.toList.contains ':'

/-- Strict lexicographic comparison of character lists by code point, the
order underlying JavaScript's default `Array.prototype.sort()` comparison
of strings. -/
def charsLtb : List Char → List Char → Bool
  | [], [] => false
  | [], _ :: _ => true
  | _ :: _, [] => false
  | a :: as, b :: bs =>
    if a.toNat < b.toNat then true
    else if b.toNat < a.toNat then false
    else charsLtb as bs

/-- Strict lexicographic order on strings (JavaScript `<` on strings). -/
def nameLt (a b : String) : Prop :=
  charsLtb a.toList b.toList = true

/-- Non-strict counterpart of `nameLt`, used as the sorting relation for a
model of JavaScript `Array.prototype.sort()` on string arrays. -/
def nameLe (a b : String) : Prop :=
  charsLtb b.toList a.toList = false

instance : DecidableRel nameLt := fun _ _ =>
  inferInstanceAs (Decidable (_ = true))

instance : DecidableRel nameLe := fun _ _ =>
  inferInstanceAs (Decidable (_ = false))

/-- Model of `array.sort()` on an array of strings: sort lexicographically
by code points.  Any comparison sort agrees with this on the lists we
consider, so insertion sort is used as the mathematical model. -/
def sortNames (l : List String) : List String :=
  List.insertionSort nameLe l

/-! ### Identity Resolver

`generateProjectId` appears twice in the source, once in
`hooks/artifact-bridge.js` and once in `src/communication/IPCClient.ts`.
Both call Node's `path.basename`, `String.prototype.toLowerCase`,
`String.prototype.replace(/[^a-z0-9]/g, '-')`, and
`crypto.createHash('md5')....digest('hex').substring(0, 8)`.  The MD5 hex
digest is abstracted as an explicit function argument `md5hex` because both
processes invoke the same Node `crypto` primitive; everything else is
modelled concretely.
-/

/-- Model of POSIX `path.basename`: drop trailing slashes, then take the
final path component. -/
def posixBasename (p : String) : String :=
  let cs := p.toList
  let trimmed := (cs.reverse.dropWhile (fun c => c = '/')).reverse
  if trimmed.isEmpty then
    (if cs.isEmpty then "" else "/")
  else
    String.mk ((trimmed.reverse.takeWhile (fun c => c ≠ '/')).reverse)

/-- Is the character one of `[a-z0-9]`? -/
def isLowerAlnum (c : Char) : Bool :=
  ('a' ≤ c && c ≤ 'z') || ('0' ≤ c && c ≤ '9')

/-- Model of `folderName.toLowerCase().replace(/[^a-z0-9]/g, '-')`:
lowercase every character, then replace each character outside `[a-z0-9]`
by a dash. -/
def slugify (s : String) : String :=
  String.mk (s.toList.map (fun c =>
    let l := c.toLower
    if isLowerAlnum l then l else '-'))

/-- `generateProjectId` from `hooks/artifact-bridge.js` (lines 106-110):
`hash = md5(path).hex.substring(0, 8)`;
`folderName = basename(path).toLowerCase().replace(/[^a-z0-9]/g, '-')`;
result `folderName + "-" + hash`.  `md5hex` stands for the hex digest
produced by Node's `crypto` module. -/
def bridge_generateProjectId (md5hex : String → String) (workspacePath : String) : String :=
  let hash := jsTake (md5hex workspacePath) 8
  let folderName := slugify (posixBasename workspacePath)
  folderName ++ "-" ++ hash

/-- `generateProjectId` from `src/communication/IPCClient.ts` (lines 42-48),
textually the same computation as the bridge-script version. -/
def ipc_generateProjectId (md5hex : String → String) (workspacePath : String) : String :=
  let hash := jsTake (md5hex workspacePath) 8
  let folderName := slugify (posixBasename workspacePath)
  folderName ++ "-" ++ hash

/-- ProjectId written the way the specification describes it:
`slug(workspaceBaseName) + "-" + hash8(workspacePath)`.  This definition
follows the spec's words and is compared with the two source embeddings. -/
def spec_projectId (md5hex : String → String) (workspacePath : String) : String :=
  slugify (posixBasename workspacePath) ++ "-" ++ jsTake (md5hex workspacePath) 8

/-! ### Plan Parser

`parsePlanMarkdown` from `hooks/artifact-bridge.js` (lines 218-282).
Section ids are produced in the source from `Date.now()` plus a random
suffix; that fresh-id generation is abstracted by a `genId` parameter
indexed by how many sections were pushed before the new one.
-/

/-- Model of `content.split('\n')` on the character list level. -/
def splitLinesChars : List Char → List (List Char)
  | [] => [[]]
  | c :: rest =>
    match splitLinesChars rest with
    | l :: ls => if c = '\n' then [] :: l :: ls else (c :: l) :: ls
    | [] => [[c]]

/-- Model of `content.split('\n')`. -/
def jsSplitLines (s : String) : List String :=
  (splitLinesChars s.toList).map String.mk

/-- Is the character one of `[a-z]`?  Used by the file-reference regex. -/
def isLowerAlpha (c : Char) : Bool :=
  'a' ≤ c && c ≤ 'z'

/-- Does a backtick-free span `content` match the body of the regex
`` /`([^`]+\.[a-z]+)`/ ``, i.e. can it be split as
`(nonempty) ++ "." ++ (nonempty run of [a-z] reaching the end)`?
Equivalently: the maximal trailing `[a-z]` run is nonempty, is preceded by
a literal dot, and something nonempty precedes that dot. -/
def isFileRefContent (content : List Char) : Bool :=
  let rev := content.reverse
  let run := rev.takeWhile isLowerAlpha
  decide (run ≠ []) &&
    (match rev.dropWhile isLowerAlpha with
     | '.' :: before => decide (before ≠ [])
     | _ => false)

/-- Model of `` line.match(/`([^`]+\.[a-z]+)`/g) `` followed by stripping
the backticks from each match.  The regex matches spans delimited by two
consecutive backticks whose body satisfies `isFileRefContent`; after a
successful match the closing backtick is consumed, while the closing
backtick of a failed span can open the next candidate span.  The scanner
state is `none` outside a span and `some acc` (reversed accumulated body)
inside one. -/
def scanFileRefs : Option (List Char) → List Char → List String
  | _, [] => []
  | none, c :: rest =>
    if c.toNat = 96 then scanFileRefs (some []) rest
    else scanFileRefs none rest
  | some acc, c :: rest =>
    if c.toNat = 96 then
      if isFileRefContent acc.reverse then
        String.mk acc.reverse :: scanFileRefs none rest
      else
        scanFileRefs (some []) rest
    else
      scanFileRefs (some (c :: acc)) rest

/-- File references extracted from one line of markdown. -/
def lineFileRefs (line : String) : List String :=
  scanFileRefs none line.toList

/-- Implicit change entry attached to each extracted file reference
(`changeType: 'modify'`, empty description). -/
structure PlanChange where
  filePath : String
  changeType : String
  description : String
deriving DecidableEq

/-- One parsed plan section. -/
structure PlanSection where
  id : String
  title : String
  description : String
  files : List String
  changes : List PlanChange
  order : Nat
deriving DecidableEq

/-- The parsed plan document. -/
structure PlanDoc where
  title : String
  summary : String
  sections : List PlanSection
deriving DecidableEq

/-- Intermediate parser state: the loop locals of `parsePlanMarkdown`. -/
structure ParseState where
  title : String
  summary : String
  sections : List PlanSection
  current : Option PlanSection
deriving DecidableEq

/-- Push `current` (if any) onto the finished-sections list, as the source
does when a new `## ` heading opens and once more at end of input. -/
def pushCurrent (sections : List PlanSection) : Option PlanSection → List PlanSection
  | some c => sections ++ [c]
  | none => sections

/-- Record newly referenced files on the current section: each extracted
path is appended to `files` and to `changes` unless already present
(per-section deduplication). -/
def addFileRefs (c : PlanSection) (refs : List String) : PlanSection :=
  refs.foldl (fun c fp =>
    if fp ∈ c.files then c
    else { c with
      files := c.files ++ [fp],
      changes := c.changes ++ [⟨fp, "modify", ""⟩] }) c

/-- The body of `parsePlanMarkdown`'s `for (const line of lines)` loop. -/
def parseLine (genId : Nat → String) (st : ParseState) (line : String) : ParseState :=
  if jsStartsWith line "# " && !containsColon st.title then
    { st with title := jsTrim (jsDrop line 2) }
  else if jsStartsWith line "## " then
    let pushed := pushCurrent st.sections st.current
    { st with
      sections := pushed,
      current := some
        { id := genId pushed.length,
          title := jsTrim (jsDrop line 3),
          description := "",
          files := [],
          changes := [],
          order := pushed.length } }
  else
    match st.current with
    | some c =>
      let c := { c with description := c.description ++ line ++ "\n" }
      { st with current := some (addFileRefs c (lineFileRefs line)) }
    | none =>
      if jsTrim line ≠ "" && !jsStartsWith line "#" then
        { st with summary := st.summary ++ line ++ "\n" }
      else
        st

/-- `parsePlanMarkdown` from `hooks/artifact-bridge.js` (lines 218-282).
`genId n` abstracts the fresh section id `section-(Date.now())-(random)`
generated when `n` sections have already been pushed. -/
def parsePlanMarkdown (genId : Nat → String) (content : String) : PlanDoc :=
  let lines := jsSplitLines content
  let st := lines.foldl (parseLine genId)
    { title := "Implementation Plan", summary := "", sections := [], current := none }
  let secs := pushCurrent st.sections st.current
  { title := st.title,
    summary := jsTrim st.summary,
    sections := secs.map (fun s => { s with description := jsTrim s.description }) }

/-! ### Approval Handshake

`waitForApproval` from `hooks/artifact-bridge.js` (lines 287-367).  The
outbox directory is modelled as a list of files, each a filename together
with its already-decoded JSON content; each poll tick lists the `.json`
files sorted, scans them in order against the five match conditions, and
on a match deletes the file and returns.  Between empty scans the script
busy-waits for `pollInterval` milliseconds; the accumulated busy-wait time
is returned as the third component.  `Date.now()`-based loop control is
modelled by the iteration count `approvalIters`, the number of times the
body of `while (Date.now() - startTime < timeoutMs)` runs when each
iteration consumes exactly `pollInterval` milliseconds.
-/

/-- Decoded JSON content of an outbox file, restricted to the fields
`waitForApproval` inspects (`type`, `payload.artifactId`, `payload.action`,
`payload.selectedOptionId`, `payload.customResponse`).  Absent fields are
`none`. -/
structure OutboxContent where
  type : String
  artifactId : Option String
  action : Option String
  selectedOptionId : Option String
  customResponse : Option String
deriving DecidableEq

/-- One file in the outbox directory. -/
structure OutboxFile where
  name : String
  content : OutboxContent
deriving DecidableEq

/-- The value `waitForApproval` returns. -/
structure ApprovalOutcome where
  approved : Bool
  reason : Option String
  customResponse : Option String
deriving DecidableEq

/-- JavaScript truthiness of `payload.customResponse` in the model:
present and not the empty string. -/
def truthyString : Option String → Bool
  | none => false
  | some s => decide (s ≠ "")

/-- The five match checks of `waitForApproval`'s inner file loop, in
source order; `none` means the file does not concern `planId`. -/
def approvalCheck (planId : String) (c : OutboxContent) : Option ApprovalOutcome :=
  if c.type = "feedback" && c.artifactId == some planId && c.action == some "proceed" then
    some ⟨true, none, none⟩
  else if c.type = "feedback" && c.artifactId == some planId && c.action == some "reject" then
    some ⟨false, some "rejected", none⟩
  else if c.type = "option-response" && c.artifactId == some planId &&
      c.selectedOptionId == some "approve" then
    some ⟨true, none, none⟩
  else if c.type = "option-response" && c.artifactId == some planId &&
      c.selectedOptionId == some "reject" then
    some ⟨false, some "rejected", none⟩
  else if c.type = "option-response" && c.artifactId == some planId &&
      truthyString c.customResponse then
    some ⟨false, some "custom", c.customResponse⟩
  else
    none

/-- One pass of the `for (const file of files)` loop over the (sorted)
outbox listing: return the first match together with the remaining files
(the matched file is `unlinkSync`ed; files before it are kept). -/
def scanOutbox (planId : String) : List OutboxFile → Option (ApprovalOutcome × List OutboxFile)
  | [] => none
  | f :: rest =>
    match approvalCheck planId f.content with
    | some r => some (r, rest)
    | none =>
      match scanOutbox planId rest with
      | some (r, remaining) => some (r, f :: remaining)
      | none => none

/-- `fs.readdirSync(outboxPath).filter(f => f.endsWith('.json')).sort()`
applied to the outbox directory, keeping each name with its content. -/
def listOutbox (outbox : List OutboxFile) : List OutboxFile :=
  List.insertionSort (fun a b => nameLe a.name b.name)
    (outbox.filter (fun f => jsEndsWith f.name ".json"))

/-- The polling loop of `waitForApproval`, by remaining iterations of the
timed `while` loop.  Each iteration lists and scans the outbox; a match
returns immediately (elapsed time of the match iteration not counted),
otherwise the script busy-waits `pollInterval` ms and retries.  Exhausting
the iterations models `Date.now() - startTime < timeoutMs` turning false,
upon which `{approved: false, reason: 'timeout'}` is returned. -/
def approvalLoop (planId : String) (pollInterval : Nat) :
    Nat → List OutboxFile → ApprovalOutcome × List OutboxFile × Nat
  | 0, outbox => (⟨false, some "timeout", none⟩, outbox, 0)
  | n + 1, outbox =>
    match scanOutbox planId (listOutbox outbox) with
    | some (r, remaining) => (r, remaining, 0)
    | none =>
      let r := approvalLoop planId pollInterval n outbox
      (r.1, r.2.1, r.2.2 + pollInterval)

/-- Number of executions of the body of
`while (Date.now() - startTime < timeoutMs)` when every iteration advances
the clock by exactly `pollInterval` ms: the ceiling of
`timeoutMs / pollInterval`. -/
def approvalIters (timeoutMs pollInterval : Nat) : Nat :=
  (timeoutMs + pollInterval - 1) / pollInterval

/-- The poll interval hard-coded in `waitForApproval` (1000 ms). -/
def approvalPollInterval : Nat := 1000

/-- The default `timeoutMs` parameter of `waitForApproval` (300000 ms). -/
def approvalDefaultTimeoutMs : Nat := 300000

/-- `waitForApproval(workspacePath, planId, timeoutMs)`: the workspace path
only selects the outbox directory, whose contents are passed directly
here.  Returns the outcome, the surviving outbox files (on a match, the
sorted `.json` listing with the matched file `unlinkSync`ed; on timeout,
the untouched directory contents), and the accumulated busy-wait time in
milliseconds. -/
def waitForApproval (planId : String) (outbox : List OutboxFile) (timeoutMs : Nat) :
    ApprovalOutcome × List OutboxFile × Nat :=
  approvalLoop planId approvalPollInterval (approvalIters timeoutMs approvalPollInterval) outbox

/-! ### Outbound Queue

`enqueueMessage` / `processQueue` / `writeMessage` from
`src/communication/IPCClient.ts` (lines 448-504).  The drain loop always
works on the head of the queue: on a successful `writeMessage` it shifts
the item and resolves its promise; on a failure it increments the item's
attempt counter; once the counter reaches
`this.config.retryAttempts || 3` it shifts the item, rejects its promise
and fires one error event, and otherwise sleeps
`this.config.retryDelay || 1000` ms and retries the same head item.
Because the head only changes when an item is shifted, the `while` loop
is embedded as one recursion per queue item (`runItem`) folded over the
queue (`processQueue`).  The outbox directory is modelled by its list of
filenames; whether a given `fs.writeFileSync` throws is abstracted by the
schedule `okFor message attemptIndex`. -/

/-- An outbound message: the two envelope fields `writeMessage` uses for
the filename.  The payload does not influence queue behaviour. -/
structure OutMsg where
  id : String
  timestamp : Nat
deriving DecidableEq

/-- `writeMessage`'s filename: `(message.timestamp)-(message.id).json`. -/
def filenameOf (m : OutMsg) : String :=
  Nat.repr m.timestamp ++ "-" ++ m.id ++ ".json"

/-- `fs.writeFileSync` on a directory modelled by its filename list:
writing an existing name overwrites in place (the name set is unchanged),
otherwise the new name is added. -/
def writeFileName (dir : List String) (name : String) : List String :=
  if name ∈ dir then dir else dir ++ [name]

/-- Effective retry attempts: the source reads
`this.config.retryAttempts || 3`, so a zero (or absent) config value falls
back to 3 and the effective bound is always positive. -/
def effRetryAttempts (ra : Nat) : Nat :=
  if ra = 0 then 3 else ra

/-- Effective retry delay: the source reads
`this.config.retryDelay || 1000`. -/
def effRetryDelay (rd : Nat) : Nat :=
  if rd = 0 then 1000 else rd

/-- The drain loop's handling of one head item, recursing on the number of
still-permitted attempts (initially the effective `retryAttempts`, which
is positive, so the 0 base case is unreachable).  `idx` is the attempt
index (the item's `attempts` field); `ok idx` tells whether attempt `idx`'s
`writeMessage` succeeds.  Returns (resolved successfully?, write attempts
performed, total milliseconds spent in `delay`). -/
def runItem (ok : Nat → Bool) (retryDelay : Nat) : Nat → Nat → Bool × Nat × Nat
  | 0, idx => (false, idx, 0)
  | n + 1, idx =>
    if ok idx then (true, idx + 1, 0)
    else if n = 0 then (false, idx + 1, 0)
    else
      let r := runItem ok retryDelay n (idx + 1)
      (r.1, r.2.1, r.2.2 + retryDelay)

/-- Per-item observable outcome of the drain loop: the message id, how
many write attempts were made, the milliseconds spent waiting between
attempts, and whether the promise was resolved (`true`) or rejected. -/
structure ItemOutcome where
  id : String
  attemptsMade : Nat
  delayMs : Nat
  success : Bool
deriving DecidableEq

/-- `processQueue`: drain the queue in order, threading the outbox
directory.  A successfully written item appends its file before the next
item is considered; a dropped item leaves the outbox untouched. -/
def processQueue (okFor : OutMsg → Nat → Bool) (retryAttempts retryDelay : Nat) :
    List OutMsg → List String → List String × List ItemOutcome
  | [], dir => (dir, [])
  | m :: rest, dir =>
    let r := runItem (okFor m) (effRetryDelay retryDelay) (effRetryAttempts retryAttempts) 0
    let dir' := cond r.1 (writeFileName dir (filenameOf m)) dir
    let res := processQueue okFor retryAttempts retryDelay rest dir'
    (res.1, ⟨m.id, r.2.1, r.2.2, r.1⟩ :: res.2)

/-- Number of `this._onError.fire` calls: exactly one per dropped item. -/
def errorEvents (outs : List ItemOutcome) : Nat :=
  outs.countP (fun o => !o.success)

/-! ### Inbound Delivery

`pollInbox` / `processIncomingFile` from `src/communication/IPCClient.ts`
(lines 278-327) plus the dedup set `processedMessageIds` (line 86).  The
`inbox` and `processed` directories are association lists from filename to
decoded envelope; `processIncomingFile` reads a file by name (a missing
file is a no-op, as with the `existsSync` guard), skips envelopes whose id
is already in `processedMessageIds`, and otherwise records the id, moves
the file to `processed` via `renameSync`, and emits the envelope.  The
constructor of a fresh `IPCClient` initialises `processedMessageIds` to
`new Set()` with no re-seeding from the `processed` directory
(`restartClient`). -/

/-- A decoded message envelope.  `processIncomingFile` only ever inspects
`id`; `timestamp` is carried along as part of the envelope shape, and the
`type`/`payload` fields are irrelevant to delivery. -/
structure Envelope where
  id : String
  timestamp : Nat
deriving DecidableEq

/-- The per-project mailbox directories that inbound delivery touches. -/
structure MailboxFS where
  inbox : List (String × Envelope)
  processed : List (String × Envelope)
deriving DecidableEq

/-- In-memory state of one `IPCClient` instance: the filesystem it
operates on, its `processedMessageIds` dedup set, and the log of messages
emitted through `_onDidReceiveMessage.fire` (in order). -/
structure ClientState where
  fsys : MailboxFS
  processedMessageIds : List String
  emitted : List Envelope
deriving DecidableEq

/-- `processIncomingFile`: if the named file still exists in the inbox,
decode it; skip it when its id was already processed; otherwise add the id
to the dedup set, atomically rename the file into `processed` (same
basename), and emit the message. -/
def processIncomingFile (s : ClientState) (name : String) : ClientState :=
  match s.fsys.inbox.find? (fun e => e.1 == name) with
  | none => s
  | some e =>
    if e.2.id ∈ s.processedMessageIds then s
    else
      { fsys :=
          { inbox := s.fsys.inbox.filter (fun p => !(p.1 == name)),
            processed := s.fsys.processed ++ [(name, e.2)] },
        processedMessageIds := e.2.id :: s.processedMessageIds,
        emitted := s.emitted ++ [e.2] }

/-- `fs.readdirSync(inboxPath).filter(f => f.endsWith('.json')).sort()`. -/
def inboxListing (fs : MailboxFS) : List String :=
  sortNames ((fs.inbox.map Prod.fst).filter (fun n => jsEndsWith n ".json"))

/-- `pollInbox`: list the inbox in sorted order and process each file. -/
def pollInbox (s : ClientState) : ClientState :=
  (inboxListing s.fsys).foldl processIncomingFile s

/-- A freshly constructed `IPCClient` over the same directories: the
constructor sets `processedMessageIds = new Set<string>()` and no code
re-seeds it from the `processed` directory. -/
def restartClient (fs : MailboxFS) : ClientState :=
  { fsys := fs, processedMessageIds := [], emitted := [] }

/-! ### State Broadcaster

`broadcastClaudeState` from `hooks/artifact-bridge.js` (lines 160-183) and
`readStateFile` from `src/communication/IPCClient.ts` (lines 223-240).
The publisher unconditionally serialises and overwrites
`state/current.json` with a fresh `startedAt`/`updatedAt` taken from
`Date.now()`; there is no comparison against a previously broadcast value.
The observer compares the freshly parsed file against
`this.currentClaudeState` (initially `null`, modelled as `none`) via
`JSON.stringify` — injective on this data — and fires the state-change
event only on a difference. -/

/-- Content of `state/current.json`: the object `broadcastClaudeState`
writes (`progress` is `null` or an opaque payload, modelled as an optional
string). -/
structure ClaudeStateData where
  state : String
  description : String
  progress : Option String
  startedAt : Nat
  updatedAt : Nat
deriving DecidableEq

/-- `broadcastClaudeState(workspacePath, state, description, progress)`:
the file content written, with both timestamps set to the current clock.
The write is unconditional — the function performs no comparison with any
previously broadcast value. -/
def broadcastClaudeState (now : Nat) (state description : String)
    (progress : Option String) : ClaudeStateData :=
  { state := state, description := description, progress := progress,
    startedAt := now, updatedAt := now }

/-- `readStateFile`: parse the state file and fire the state-change event
only if the value differs from the last-seen one (`JSON.stringify`
comparison, with `none` for the initial `null`).  Returns the new
last-seen value and whether the event fired. -/
def readStateFile (last : Option ClaudeStateData) (content : ClaudeStateData) :
    Option ClaudeStateData × Bool :=
  if some content = last then (last, false) else (some content, true)

/-- Number of state-change events the observer fires over a sequence of
reads of successive file contents. -/
def observeEmits : Option ClaudeStateData → List ClaudeStateData → Nat
  | _, [] => 0
  | last, c :: cs =>
    let r := readStateFile last c
    cond r.2 1 0 + observeEmits r.1 cs

/-! ### Session State

`loadState` / `addFileChange` from `hooks/artifact-bridge.js` (lines
583-638).  The session-state document is read, modified and written back
on each call; `addFileChange` either mutates the first `changedFiles`
entry with a matching `filePath` (summing the line counts and bumping
`changeCount` via `(existing.changeCount || 1) + 1`) or pushes a fresh
entry with `changeCount: 1` and the current ISO timestamp. -/

/-- One entry of `SessionState.changedFiles`. -/
structure FileChange where
  filePath : String
  changeType : String
  linesAdded : Nat
  linesRemoved : Nat
  changeCount : Nat
  timestamp : String
deriving DecidableEq

/-- The session-state document (fields relevant to change tracking). -/
structure SessionState where
  sessionId : String
  startedAt : String
  changedFiles : List FileChange
  keyPoints : List String
deriving DecidableEq

/-- The default document `loadState` returns when no state file exists. -/
def initialSessionState (sessionId startedAt : String) : SessionState :=
  { sessionId := sessionId, startedAt := startedAt, changedFiles := [], keyPoints := [] }

/-- The in-place mutation `addFileChange` applies to an already-tracked
entry: line counts are summed, `changeCount` is bumped through the
JavaScript expression `(existing.changeCount || 1) + 1`, and `changeType`
and `timestamp` are left untouched. -/
def bumpChange (la lr : Nat) (f : FileChange) : FileChange :=
  { f with
    linesAdded := f.linesAdded + la,
    linesRemoved := f.linesRemoved + lr,
    changeCount := (if f.changeCount = 0 then 1 else f.changeCount) + 1 }

/-- `Array.prototype.find` followed by mutation of the found object:
rewrite the first entry whose `filePath` matches. -/
def updateFirst (fp : String) (g : FileChange → FileChange) :
    List FileChange → List FileChange
  | [] => []
  | c :: cs => if c.filePath == fp then g c :: cs else c :: updateFirst fp g cs

/-- `addFileChange(workspacePath, filePath, changeType, linesAdded,
linesRemoved)` acting on a loaded state; `now` is the ISO timestamp used
for a newly created entry. -/
def addFileChange (s : SessionState) (fp ct : String) (la lr : Nat)
    (now : String) : SessionState :=
  match s.changedFiles.find? (fun f => f.filePath == fp) with
  | some _ => { s with changedFiles := updateFirst fp (bumpChange la lr) s.changedFiles }
  | none => { s with changedFiles := s.changedFiles ++
      [{ filePath := fp, changeType := ct, linesAdded := la, linesRemoved := lr,
         changeCount := 1, timestamp := now }] }

/-- Arguments of one `addFileChange` call. -/
structure ChangeCall where
  filePath : String
  changeType : String
  linesAdded : Nat
  linesRemoved : Nat
  now : String

/-- A sequence of `addFileChange` calls applied in order. -/
def applyCalls (s : SessionState) (calls : List ChangeCall) : SessionState :=
  calls.foldl
    (fun s c => addFileChange s c.filePath c.changeType c.linesAdded c.linesRemoved c.now) s

-- ===== Theorems =====

/-- Code-point lexicographic comparison is irreflexive. -/
theorem charsLtb_irrefl : ∀ l : List Char, charsLtb l l = false
  | [] => rfl
  | c :: l => by simp [charsLtb, charsLtb_irrefl l]

/-- Code-point lexicographic comparison is transitive. -/
theorem charsLtb_trans : ∀ a b c : List Char,
    charsLtb a b = true → charsLtb b c = true → charsLtb a c = true
  | [], [], _, h1, _ => by simp [charsLtb] at h1
  | [], _ :: _, [], _, h2 => by simp [charsLtb] at h2
  | [], _ :: _, _ :: _, _, _ => rfl
  | _ :: _, [], _, h1, _ => by simp [charsLtb] at h1
  | _ :: _, _ :: _, [], _, h2 => by simp [charsLtb] at h2
  | a :: as, b :: bs, c :: cs, h1, h2 => by
    simp only [charsLtb] at h1 h2 ⊢
    by_cases hab : a.toNat < b.toNat
    · by_cases hbc : b.toNat < c.toNat
      · have hac : a.toNat < c.toNat := by omega
        simp [hac]
      · by_cases hcb : c.toNat < b.toNat
        · simp [hbc, hcb] at h2
        · have hac : a.toNat < c.toNat := by omega
          simp [hac]
    · by_cases hba : b.toNat < a.toNat
      · simp [hab, hba] at h1
      · have h1' : charsLtb as bs = true := by simpa [hab, hba] using h1
        by_cases hbc : b.toNat < c.toNat
        · have hac : a.toNat < c.toNat := by omega
          simp [hac]
        · by_cases hcb : c.toNat < b.toNat
          · simp [hbc, hcb] at h2
          · have h2' : charsLtb bs cs = true := by simpa [hbc, hcb] using h2
            have hac : ¬ a.toNat < c.toNat := by omega
            have hca : ¬ c.toNat < a.toNat := by omega
            simp [hac, hca, charsLtb_trans as bs cs h1' h2']

/-- Code-point lexicographic comparison is asymmetric. -/
theorem charsLtb_asymm : ∀ a b : List Char,
    charsLtb a b = true → charsLtb b a = false
  | [], [], h => by simp [charsLtb] at h
  | [], _ :: _, _ => rfl
  | _ :: _, [], h => by simp [charsLtb] at h
  | a :: as, b :: bs, h => by
    simp only [charsLtb] at h ⊢
    by_cases hab : a.toNat < b.toNat
    · have hba : ¬ b.toNat < a.toNat := by omega
      simp [hab, hba]
    · by_cases hba : b.toNat < a.toNat
      · simp [hab, hba] at h
      · have h' : charsLtb as bs = true := by simpa [hab, hba] using h
        simp [hab, hba, charsLtb_asymm as bs h']

instance : IsTrans String nameLt :=
  ⟨fun a b c => charsLtb_trans a.toList b.toList c.toList⟩

/-- Strictly smaller names are distinct. -/
theorem nameLt_ne (a b : String) (h : nameLt a b) : a ≠ b := by
  intro hab
  rw [hab] at h
  exact absurd h (by simp [nameLt, charsLtb_irrefl])

/-- Strict name order implies the non-strict sorting relation. -/
theorem nameLt_le (a b : String) (h : nameLt a b) : nameLe a b :=
  charsLtb_asymm a.toList b.toList h

/-- Head-item drain behaviour when every write attempt fails: with `n + 1`
permitted attempts starting at attempt index `idx`, the loop makes all
`n + 1` attempts, waits `retryDelay` after each non-final failure, and
drops the item. -/
theorem runItem_const_false (ok : Nat → Bool) (rd : Nat) (hf : ∀ k, ok k = false) :
    ∀ n idx, runItem ok rd (n + 1) idx = (false, idx + n + 1, n * rd)
  | 0, idx => by simp [runItem, hf idx]
  | n + 1, idx => by
    have ih := runItem_const_false ok rd hf n (idx + 1)
    have harith1 : idx + 1 + n + 1 = idx + (n + 1) + 1 := by omega
    have harith2 : n * rd + rd = (n + 1) * rd := (Nat.succ_mul n rd).symm
    have hstep : runItem ok rd (n + 1 + 1) idx =
        (if ok idx then (true, idx + 1, 0)
         else if n + 1 = 0 then (false, idx + 1, 0)
         else ((runItem ok rd (n + 1) (idx + 1)).1,
               (runItem ok rd (n + 1) (idx + 1)).2.1,
               (runItem ok rd (n + 1) (idx + 1)).2.2 + rd)) := rfl
    rw [hstep, hf idx, ih]
    simp [harith1, harith2]

/-- Head-item drain behaviour when the first write succeeds. -/
theorem runItem_first_ok (ok : Nat → Bool) (rd r : Nat) (hr : 0 < r)
    (h : ok 0 = true) : runItem ok rd r 0 = (true, 1, 0) := by
  obtain ⟨n, hn⟩ := Nat.exists_eq_succ_of_ne_zero (Nat.pos_iff_ne_zero.mp hr)
  rw [hn]
  simp [runItem, h]

/-- The effective retry bound is always positive (`retryAttempts || 3`). -/
theorem effRetryAttempts_pos (ra : Nat) : 0 < effRetryAttempts ra := by
  unfold effRetryAttempts
  split <;> omega

/-- Drain of a queue whose writes all succeed on their first attempt:
every promise resolves after exactly one attempt with no waiting, no error
events fire, and the outbox receives the filenames in enqueue order. -/
theorem processQueue_all_ok (okFor : OutMsg → Nat → Bool) (ra rd : Nat) :
    ∀ (msgs : List OutMsg) (dir : List String),
      (∀ m ∈ msgs, okFor m 0 = true) →
      (dir ++ msgs.map filenameOf).Nodup →
      (processQueue okFor ra rd msgs dir).1 = dir ++ msgs.map filenameOf ∧
      ∀ o ∈ (processQueue okFor ra rd msgs dir).2,
        o.success = true ∧ o.attemptsMade = 1 ∧ o.delayMs = 0
  | [], dir, _, _ => by simp [processQueue]
  | m :: rest, dir, hok, hnd => by
    have hrun : runItem (okFor m) (effRetryDelay rd) (effRetryAttempts ra) 0 = (true, 1, 0) :=
      runItem_first_ok (okFor m) (effRetryDelay rd) (effRetryAttempts ra)
        (effRetryAttempts_pos ra) (hok m (by simp))
    have hnotin : filenameOf m ∉ dir := by
      rw [List.nodup_append] at hnd
      exact fun hc => hnd.2.2 hc (by simp)
    have hnd' : ((dir ++ [filenameOf m]) ++ rest.map filenameOf).Nodup := by
      simpa [List.append_assoc] using hnd
    have hrec := processQueue_all_ok okFor ra rd rest (dir ++ [filenameOf m])
      (fun x hx => hok x (by simp [hx])) hnd'
    have hdir' : writeFileName dir (filenameOf m) = dir ++ [filenameOf m] := by
      simp [writeFileName, hnotin]
    constructor
    · show (processQueue okFor ra rd (m :: rest) dir).1 = _
      simp only [processQueue, hrun, Bool.cond_true, hdir']
      rw [hrec.1]
      simp
    · intro o ho
      simp only [processQueue, hrun, Bool.cond_true, hdir', List.mem_cons] at ho
      rcases ho with ho | ho
      · subst ho
        exact ⟨rfl, rfl, rfl⟩
      · exact hrec.2 o ho

/-- One `processIncomingFile` call only ever appends to the emission log
messages found in the current inbox, and only ever shrinks the inbox. -/
theorem processIncomingFile_step (s : ClientState) (name : String) :
    ∃ new, (processIncomingFile s name).emitted = s.emitted ++ new ∧
      (∀ e ∈ new, ∃ n, (n, e) ∈ s.fsys.inbox) ∧
      (∀ p ∈ (processIncomingFile s name).fsys.inbox, p ∈ s.fsys.inbox) := by
  unfold processIncomingFile
  cases hfind : s.fsys.inbox.find? (fun e => e.1 == name) with
  | none => exact ⟨[], by simp, by simp, fun p hp => hp⟩
  | some e =>
    by_cases hmem : e.2.id ∈ s.processedMessageIds
    · exact ⟨[], by simp [hmem], by simp, fun p hp => by simpa [hmem] using hp⟩
    · refine ⟨[e.2], by simp [hmem], ?_, ?_⟩
      · intro x hx
        simp only [List.mem_singleton] at hx
        subst hx
        exact ⟨e.1, by simpa using List.mem_of_find?_eq_some hfind⟩
      · intro p hp
        simp only [hmem, if_false] at hp
        exact List.mem_of_mem_filter hp

/-- Folding `processIncomingFile` over any list of names appends to the
emission log only messages found in the starting inbox, and the inbox
only shrinks. -/
theorem pollFold_emitted : ∀ (names : List String) (t : ClientState),
    ∃ new, (names.foldl processIncomingFile t).emitted = t.emitted ++ new ∧
      (∀ e ∈ new, ∃ n, (n, e) ∈ t.fsys.inbox) ∧
      (∀ p ∈ (names.foldl processIncomingFile t).fsys.inbox, p ∈ t.fsys.inbox)
  | [], t => ⟨[], by simp, by simp, fun p hp => hp⟩
  | name :: names, t => by
    obtain ⟨new0, h0e, h0src, h0inbox⟩ := processIncomingFile_step t name
    obtain ⟨new1, h1e, h1src, h1inbox⟩ :=
      pollFold_emitted names (processIncomingFile t name)
    refine ⟨new0 ++ new1, ?_, ?_, ?_⟩
    · simpa [h0e, List.append_assoc] using h1e
    · intro e he
      rcases List.mem_append.mp he with he | he
      · exact h0src e he
      · obtain ⟨n, hn⟩ := h1src e he
        exact ⟨n, h0inbox _ hn⟩
    · intro p hp
      exact h0inbox p (h1inbox p hp)

/-- Claim C1 (amended): after `processIncomingFile` moves an inbox file
holding the only message with id `m.id` into `processed`, re-running
discovery never emits that id again — neither on the same client (whose
dedup set has the id) nor on a freshly restarted `IPCClient`; but not for
the reason the claim gives: the fresh client's `processedMessageIds` is
EMPTY (the code never seeds it from the `processed` directory), and the
guarantee follows from the atomic rename out of the inbox. -/
theorem c1_at_most_once_amended
    (s : ClientState) (name : String) (m : Envelope)
    (hfind : s.fsys.inbox.find? (fun e => e.1 == name) = some (name, m))
    (hnew : m.id ∉ s.processedMessageIds)
    (huniq : ∀ p ∈ s.fsys.inbox, p.2.id = m.id → p = (name, m)) :
    (∀ p ∈ (processIncomingFile s name).fsys.inbox, p.2.id ≠ m.id) ∧
    (name, m) ∈ (processIncomingFile s name).fsys.processed ∧
    List.countP (fun e => e.id == m.id) ((pollInbox (processIncomingFile s name)).emitted) =
      List.countP (fun e => e.id == m.id) ((processIncomingFile s name).emitted) ∧
    (restartClient (processIncomingFile s name).fsys).processedMessageIds = [] ∧
    ∀ e ∈ (pollInbox (restartClient (processIncomingFile s name).fsys)).emitted,
      e.id ≠ m.id := by
  have hs' : processIncomingFile s name =
      { fsys :=
          { inbox := s.fsys.inbox.filter (fun p => !(p.1 == name)),
            processed := s.fsys.processed ++ [(name, m)] },
        processedMessageIds := m.id :: s.processedMessageIds,
        emitted := s.emitted ++ [m] } := by
    unfold processIncomingFile
    rw [hfind]
    simp [hnew]
  have hinbox : ∀ p ∈ (processIncomingFile s name).fsys.inbox, p.2.id ≠ m.id := by
    intro p hp hid
    rw [hs'] at hp
    simp only [List.mem_filter] at hp
    have := huniq p hp.1 hid
    rw [this] at hp
    simp at hp
  refine ⟨hinbox, ?_, ?_, rfl, ?_⟩
  · rw [hs']
    simp
  · unfold pollInbox
    obtain ⟨new, he, hsrc, _⟩ :=
      pollFold_emitted (inboxListing (processIncomingFile s name).fsys)
        (processIncomingFile s name)
    rw [he, List.countP_append]
    have hzero : List.countP (fun e => e.id == m.id) new = 0 := by
      rw [List.countP_eq_zero]
      intro e hethis
      obtain ⟨n, hn⟩ := hsrc e hethis
      have := hinbox (n, e) hn
      simpa using this
    omega
  · intro e he
    unfold pollInbox at he
    obtain ⟨new, hnew', hsrc, _⟩ :=
      pollFold_emitted (inboxListing (restartClient (processIncomingFile s name).fsys).fsys)
        (restartClient (processIncomingFile s name).fsys)
    rw [hnew'] at he
    simp only [restartClient, List.nil_append] at he hnew' hsrc ⊢
    obtain ⟨n, hn⟩ := hsrc e (by simpa using he)
    exact hinbox (n, e) hn

/-- Claim C1 (counterexample to the seeding clause): a concrete run where
an inbox file with id `m1` is processed and moved to `processed`, after
which a freshly constructed client over the same directories has an EMPTY
`processedMessageIds` set — `m1` is not in it, so the set is not seeded
from the `processed` directory as the claim asserts — and yet re-running
discovery emits nothing. -/
theorem c1_no_seeding_counterexample :
    (processIncomingFile ⟨⟨[("1-m1.json", ⟨"m1", 1⟩)], []⟩, [], []⟩ "1-m1.json").fsys.processed =
      [("1-m1.json", ⟨"m1", 1⟩)] ∧
    "m1" ∉ (restartClient
      (processIncomingFile ⟨⟨[("1-m1.json", ⟨"m1", 1⟩)], []⟩, [], []⟩
        "1-m1.json").fsys).processedMessageIds ∧
    (pollInbox (restartClient
      (processIncomingFile ⟨⟨[("1-m1.json", ⟨"m1", 1⟩)], []⟩, [], []⟩
        "1-m1.json").fsys)).emitted = [] := by
  decide

/-- Witness for the amended C1 at a concrete state: one pending file plus
an unrelated message in the inbox. -/
theorem c1_at_most_once_amended_witness :
    ("1-m1.json", (⟨"m1", 1⟩ : Envelope)) ∈ (processIncomingFile
      ⟨⟨[("1-m1.json", ⟨"m1", 1⟩), ("2-m2.json", ⟨"m2", 2⟩)], []⟩, [], []⟩
      "1-m1.json").fsys.processed ∧
    List.countP (fun e => e.id == "m1")
      ((pollInbox (processIncomingFile ⟨⟨[("1-m1.json", ⟨"m1", 1⟩), ("2-m2.json", ⟨"m2", 2⟩)],
        []⟩, [], []⟩ "1-m1.json")).emitted) =
      List.countP (fun e => e.id == "m1")
        ((processIncomingFile ⟨⟨[("1-m1.json", ⟨"m1", 1⟩), ("2-m2.json", ⟨"m2", 2⟩)], []⟩,
          [], []⟩ "1-m1.json").emitted) ∧
    (restartClient (processIncomingFile ⟨⟨[("1-m1.json", ⟨"m1", 1⟩), ("2-m2.json", ⟨"m2", 2⟩)],
      []⟩, [], []⟩ "1-m1.json").fsys).processedMessageIds = [] :=
  ⟨(c1_at_most_once_amended
      ⟨⟨[("1-m1.json", ⟨"m1", 1⟩), ("2-m2.json", ⟨"m2", 2⟩)], []⟩, [], []⟩
      "1-m1.json" ⟨"m1", 1⟩ (by decide) (by decide) (by decide)).2.1,
   (c1_at_most_once_amended
      ⟨⟨[("1-m1.json", ⟨"m1", 1⟩), ("2-m2.json", ⟨"m2", 2⟩)], []⟩, [], []⟩
      "1-m1.json" ⟨"m1", 1⟩ (by decide) (by decide) (by decide)).2.2.1,
   (c1_at_most_once_amended
      ⟨⟨[("1-m1.json", ⟨"m1", 1⟩), ("2-m2.json", ⟨"m2", 2⟩)], []⟩, [], []⟩
      "1-m1.json" ⟨"m1", 1⟩ (by decide) (by decide) (by decide)).2.2.2.1⟩

/-- Claim C4 (counterexample): with two messages enqueued in the same
millisecond (`timestamp` 5) and ids `msg-5-z` then `msg-5-a`, every write
succeeding on the first attempt, the outbox receives the files in enqueue
order, but their lexically sorted listing is the REVERSE of the enqueue
order: the random id suffix decides ties, so `(timestamp)-(id).json`
filenames do not always sort in enqueue order as the claim states. -/
theorem c4_ordering_counterexample :
    (processQueue (fun _ _ => true) 3 1000 [⟨"msg-5-z", 5⟩, ⟨"msg-5-a", 5⟩] []).1 =
      ["5-msg-5-z.json", "5-msg-5-a.json"] ∧
    sortNames ((processQueue (fun _ _ => true) 3 1000 [⟨"msg-5-z", 5⟩, ⟨"msg-5-a", 5⟩] []).1) =
      ["5-msg-5-a.json", "5-msg-5-z.json"] ∧
    sortNames ((processQueue (fun _ _ => true) 3 1000 [⟨"msg-5-z", 5⟩, ⟨"msg-5-a", 5⟩] []).1) ≠
      List.map filenameOf [⟨"msg-5-z", 5⟩, ⟨"msg-5-a", 5⟩] := by
  decide

/-- Claim C4 (amended): if messages m1…mN are enqueued in that order and
every outbox write succeeds on its first attempt, the outbox ends up
containing exactly N files, appended in exactly the order m1…mN, and no
error event fires; their filenames additionally sort lexically in exactly
that order whenever consecutive filenames are strictly increasing (in
particular when timestamps are strictly increasing with a fixed decimal
width), though not in general (see the counterexample). -/
theorem c4_ordering_amended (okFor : OutMsg → Nat → Bool) (ra rd : Nat)
    (msgs : List OutMsg)
    (hok : ∀ m ∈ msgs, okFor m 0 = true)
    (hchain : List.Chain' nameLt (msgs.map filenameOf)) :
    (processQueue okFor ra rd msgs []).1 = msgs.map filenameOf ∧
    (processQueue okFor ra rd msgs []).1.length = msgs.length ∧
    sortNames ((processQueue okFor ra rd msgs []).1) = msgs.map filenameOf ∧
    errorEvents ((processQueue okFor ra rd msgs []).2) = 0 := by
  have hpw : (msgs.map filenameOf).Pairwise nameLt := List.chain'_iff_pairwise.mp hchain
  have hnd : (msgs.map filenameOf).Nodup := hpw.imp (fun h => nameLt_ne _ _ h)
  have hmain := processQueue_all_ok okFor ra rd msgs [] hok (by simpa using hnd)
  have h1 : (processQueue okFor ra rd msgs []).1 = msgs.map filenameOf := by
    simpa using hmain.1
  refine ⟨h1, by rw [h1]; simp, ?_, ?_⟩
  · rw [h1]
    have hsorted : (msgs.map filenameOf).Sorted nameLe := hpw.imp (fun h => nameLt_le _ _ h)
    exact List.Sorted.insertionSort_eq hsorted
  · unfold errorEvents
    rw [List.countP_eq_zero]
    intro o ho
    simp [(hmain.2 o ho).1]

/-- Witness for the amended C4: two messages with strictly increasing
equal-width timestamps drain into an outbox whose sorted listing is the
enqueue order. -/
theorem c4_ordering_amended_witness :
    (processQueue (fun _ _ => true) 3 1000 [⟨"a", 10⟩, ⟨"b", 11⟩] []).1 =
      List.map filenameOf [⟨"a", 10⟩, ⟨"b", 11⟩] ∧
    (processQueue (fun _ _ => true) 3 1000 [⟨"a", 10⟩, ⟨"b", 11⟩] []).1.length =
      ([⟨"a", 10⟩, ⟨"b", 11⟩] : List OutMsg).length ∧
    sortNames ((processQueue (fun _ _ => true) 3 1000 [⟨"a", 10⟩, ⟨"b", 11⟩] []).1) =
      List.map filenameOf [⟨"a", 10⟩, ⟨"b", 11⟩] ∧
    errorEvents ((processQueue (fun _ _ => true) 3 1000 [⟨"a", 10⟩, ⟨"b", 11⟩] []).2) = 0 :=
  c4_ordering_amended (fun _ _ => true) 3 1000 [⟨"a", 10⟩, ⟨"b", 11⟩]
    (by simp)
    (by
      have hmap : List.map filenameOf [(⟨"a", 10⟩ : OutMsg), ⟨"b", 11⟩] =
          ["10-a.json", "11-b.json"] := rfl
      rw [hmap]
      exact List.chain'_cons.mpr ⟨by decide, by simp⟩)

/-- Claim C5: a head message whose write fails on every attempt undergoes
exactly `retryAttempts` write attempts with `retryDelay` waited between
consecutive attempts (so `retryAttempts - 1` waits), writes nothing to the
outbox, is then removed with its promise rejected, fires exactly one error
event, and the drain continues with the rest of the queue exactly as if
it had started there. -/
theorem c5_retry_bound (okFor : OutMsg → Nat → Bool) (ra rd : Nat)
    (m : OutMsg) (rest : List OutMsg) (dir : List String)
    (hra : 0 < ra)
    (hfail : ∀ n, okFor m n = false) :
    (processQueue okFor ra rd (m :: rest) dir).1 = (processQueue okFor ra rd rest dir).1 ∧
    (processQueue okFor ra rd (m :: rest) dir).2 =
      ⟨m.id, ra, (ra - 1) * effRetryDelay rd, false⟩ :: (processQueue okFor ra rd rest dir).2 ∧
    errorEvents ((processQueue okFor ra rd (m :: rest) dir).2) =
      errorEvents ((processQueue okFor ra rd rest dir).2) + 1 := by
  obtain ⟨k, hk⟩ := Nat.exists_eq_succ_of_ne_zero (Nat.pos_iff_ne_zero.mp hra)
  have heff : effRetryAttempts ra = k + 1 := by
    simp [effRetryAttempts, hk]
  have hrun := runItem_const_false (okFor m) (effRetryDelay rd) hfail k 0
  have hrun' : runItem (okFor m) (effRetryDelay rd) (effRetryAttempts ra) 0 =
      (false, ra, (ra - 1) * effRetryDelay rd) := by
    rw [heff, hrun]
    simp [hk]
  refine ⟨?_, ?_, ?_⟩
  · simp only [processQueue, hrun', Bool.cond_false]
  · simp only [processQueue, hrun', Bool.cond_false]
  · simp only [processQueue, hrun', Bool.cond_false]
    unfold errorEvents
    rw [List.countP_cons]
    simp

/-- Witness for C5: one always-failing message with the default settings
(3 attempts, 1000 ms delay) yields a single rejected outcome after 3
attempts and 2000 ms of waiting, one error event, and no outbox write. -/
theorem c5_retry_bound_witness :
    (processQueue (fun _ _ => false) 3 1000 [⟨"m1", 7⟩] []).1 =
      (processQueue (fun _ _ => false) 3 1000 [] []).1 ∧
    (processQueue (fun _ _ => false) 3 1000 [⟨"m1", 7⟩] []).2 =
      ⟨"m1", 3, (3 - 1) * effRetryDelay 1000, false⟩ ::
        (processQueue (fun _ _ => false) 3 1000 [] []).2 ∧
    errorEvents ((processQueue (fun _ _ => false) 3 1000 [⟨"m1", 7⟩] []).2) =
      errorEvents ((processQueue (fun _ _ => false) 3 1000 [] []).2) + 1 :=
  c5_retry_bound (fun _ _ => false) 3 1000 ⟨"m1", 7⟩ [] [] (by decide) (fun _ => rfl)

/-- A content whose three feedback fields name `planId` with action
`proceed` passes the first match check of `waitForApproval`. -/
theorem approvalCheck_proceed (planId : String) (c : OutboxContent)
    (htype : c.type = "feedback") (hart : c.artifactId = some planId)
    (hact : c.action = some "proceed") :
    approvalCheck planId c = some ⟨true, none, none⟩ := by
  simp [approvalCheck, htype, hart, hact]

/-- Scanning a listing whose earlier files do not concern `planId` finds
the first matching file and removes exactly it. -/
theorem scanOutbox_append_of_none (planId : String) (f : OutboxFile)
    (r : ApprovalOutcome) :
    ∀ (pre post : List OutboxFile),
      (∀ g ∈ pre, approvalCheck planId g.content = none) →
      approvalCheck planId f.content = some r →
      scanOutbox planId (pre ++ f :: post) = some (r, pre ++ post)
  | [], post, _, hf => by simp [scanOutbox, hf]
  | g :: pre, post, hpre, hf => by
    have hg : approvalCheck planId g.content = none := hpre g (by simp)
    have ih := scanOutbox_append_of_none planId f r pre post
      (fun x hx => hpre x (by simp [hx])) hf
    simp [scanOutbox, hg, ih]

/-- Scanning a listing with no file concerning `planId` finds nothing. -/
theorem scanOutbox_eq_none (planId : String) :
    ∀ l : List OutboxFile,
      (∀ g ∈ l, approvalCheck planId g.content = none) →
      scanOutbox planId l = none
  | [], _ => rfl
  | g :: l, h => by
    have hg : approvalCheck planId g.content = none := h g (by simp)
    have ih := scanOutbox_eq_none planId l (fun x hx => h x (by simp [hx]))
    simp [scanOutbox, hg, ih]

/-- Every file in the sorted `.json` listing comes from the directory. -/
theorem mem_of_mem_listOutbox (outbox : List OutboxFile) (g : OutboxFile)
    (h : g ∈ listOutbox outbox) : g ∈ outbox := by
  have hperm := List.perm_insertionSort
    (fun a b => nameLe a.name b.name) (outbox.filter (fun f => jsEndsWith f.name ".json"))
  have := hperm.mem_iff.mp h
  exact List.mem_of_mem_filter this

/-- When no scan ever matches, the polling loop runs all its iterations,
busy-waiting `pollInterval` ms in each, and returns the timeout outcome
with the directory untouched. -/
theorem approvalLoop_all_none (planId : String) (pollInterval : Nat)
    (outbox : List OutboxFile)
    (hnone : scanOutbox planId (listOutbox outbox) = none) :
    ∀ n : Nat, approvalLoop planId pollInterval n outbox =
      (⟨false, some "timeout", none⟩, outbox, n * pollInterval)
  | 0 => by simp [approvalLoop]
  | n + 1 => by
    have ih := approvalLoop_all_none planId pollInterval outbox hnone n
    simp [approvalLoop, hnone, ih, Nat.succ_mul]

/-- Claim C2 (counterexample): the claim quantifies over every outbox
that contains a matching proceed file, but the scan honours the first
matching file in sorted order.  With a reject file `1-a.json` sorting
before the proceed file `2-b.json` (both for plan `p1`), the handshake
returns `approved: false, reason: "rejected"` and the proceed file
still exists afterwards. -/
theorem c2_approval_approve_counterexample :
    (waitForApproval "p1"
      [⟨"1-a.json", ⟨"feedback", some "p1", some "reject", none, none⟩⟩,
       ⟨"2-b.json", ⟨"feedback", some "p1", some "proceed", none, none⟩⟩] 50).1 =
      ⟨false, some "rejected", none⟩ ∧
    (waitForApproval "p1"
      [⟨"1-a.json", ⟨"feedback", some "p1", some "reject", none, none⟩⟩,
       ⟨"2-b.json", ⟨"feedback", some "p1", some "proceed", none, none⟩⟩] 50).1 ≠
      ⟨true, none, none⟩ ∧
    (⟨"2-b.json", ⟨"feedback", some "p1", some "proceed", none, none⟩⟩ : OutboxFile) ∈
      (waitForApproval "p1"
        [⟨"1-a.json", ⟨"feedback", some "p1", some "reject", none, none⟩⟩,
         ⟨"2-b.json", ⟨"feedback", some "p1", some "proceed", none, none⟩⟩] 50).2.1 := by
  decide

/-- Claim C2 (amended): if, within the timeout, the outbox contains a file
whose decoded content is `type: "feedback"`, `payload.artifactId = planId`,
`payload.action = "proceed"`, and no file sorting before it concerns
`planId`, then `waitForApproval` returns `approved: true` and deletes
exactly that file, so it no longer exists afterwards. -/
theorem c2_approval_approve
    (planId : String) (outbox : List OutboxFile) (timeoutMs : Nat)
    (pre post : List OutboxFile) (f : OutboxFile)
    (hlist : listOutbox outbox = pre ++ f :: post)
    (htype : f.content.type = "feedback")
    (hart : f.content.artifactId = some planId)
    (hact : f.content.action = some "proceed")
    (hpre : ∀ g ∈ pre, approvalCheck planId g.content = none)
    (htime : 0 < timeoutMs)
    (hf1 : f ∉ pre) (hf2 : f ∉ post) :
    (waitForApproval planId outbox timeoutMs).1 = ⟨true, none, none⟩ ∧
    (waitForApproval planId outbox timeoutMs).2.1 = pre ++ post ∧
    f ∉ (waitForApproval planId outbox timeoutMs).2.1 := by
  have hcheck := approvalCheck_proceed planId f.content htype hart hact
  have hscan := scanOutbox_append_of_none planId f ⟨true, none, none⟩ pre post hpre hcheck
  have hiters : 0 < approvalIters timeoutMs approvalPollInterval := by
    unfold approvalIters approvalPollInterval
    omega
  obtain ⟨n, hn⟩ := Nat.exists_eq_succ_of_ne_zero (Nat.pos_iff_ne_zero.mp hiters)
  unfold waitForApproval
  rw [hn]
  simp only [approvalLoop, hlist, hscan]
  refine ⟨by trivial, by trivial, ?_⟩
  simp only [List.mem_append]
  rintro (h | h)
  · exact hf1 h
  · exact hf2 h

/-- Claim C3: if no outbox file matches `planId` under any of the five
checks (feedback proceed/reject or option-response), `waitForApproval`
returns the ordinary value `approved: false, reason: "timeout"` — not an
exception — leaving the outbox untouched, after a total busy-wait of at
least `timeoutMs` and less than `timeoutMs + pollInterval` milliseconds;
the default timeout parameter is 300000 ms. -/
theorem c3_approval_timeout
    (planId : String) (outbox : List OutboxFile) (timeoutMs : Nat)
    (hnone : ∀ g ∈ outbox, approvalCheck planId g.content = none) :
    (waitForApproval planId outbox timeoutMs).1 = ⟨false, some "timeout", none⟩ ∧
    (waitForApproval planId outbox timeoutMs).2.1 = outbox ∧
    timeoutMs ≤ (waitForApproval planId outbox timeoutMs).2.2 ∧
    (waitForApproval planId outbox timeoutMs).2.2 < timeoutMs + approvalPollInterval ∧
    approvalDefaultTimeoutMs = 300000 := by
  have hscan : scanOutbox planId (listOutbox outbox) = none :=
    scanOutbox_eq_none planId (listOutbox outbox)
      (fun g hg => hnone g (mem_of_mem_listOutbox outbox g hg))
  have hloop := approvalLoop_all_none planId approvalPollInterval outbox hscan
    (approvalIters timeoutMs approvalPollInterval)
  unfold waitForApproval
  rw [hloop]
  refine ⟨rfl, rfl, ?_, ?_, rfl⟩
  · show timeoutMs ≤ approvalIters timeoutMs approvalPollInterval * approvalPollInterval
    unfold approvalIters approvalPollInterval
    have h1 := Nat.div_add_mod (timeoutMs + 1000 - 1) 1000
    have h2 := Nat.mod_lt (timeoutMs + 1000 - 1) (show 0 < 1000 by omega)
    omega
  · show approvalIters timeoutMs approvalPollInterval * approvalPollInterval <
      timeoutMs + approvalPollInterval
    unfold approvalIters approvalPollInterval
    have h1 := Nat.div_add_mod (timeoutMs + 1000 - 1) 1000
    have h2 := Nat.mod_lt (timeoutMs + 1000 - 1) (show 0 < 1000 by omega)
    omega

/-- Witness for C2: a concrete outbox holding exactly the matching
feedback/proceed file for plan `p1`; the handshake approves and the file
is gone afterwards. -/
theorem c2_approval_approve_witness :
    (waitForApproval "p1"
      [⟨"1-m.json", ⟨"feedback", some "p1", some "proceed", none, none⟩⟩] 50).1 =
      ⟨true, none, none⟩ ∧
    (waitForApproval "p1"
      [⟨"1-m.json", ⟨"feedback", some "p1", some "proceed", none, none⟩⟩] 50).2.1 = [] ∧
    (⟨"1-m.json", ⟨"feedback", some "p1", some "proceed", none, none⟩⟩ : OutboxFile) ∉
      (waitForApproval "p1"
        [⟨"1-m.json", ⟨"feedback", some "p1", some "proceed", none, none⟩⟩] 50).2.1 :=
  c2_approval_approve "p1"
    [⟨"1-m.json", ⟨"feedback", some "p1", some "proceed", none, none⟩⟩] 50 [] []
    ⟨"1-m.json", ⟨"feedback", some "p1", some "proceed", none, none⟩⟩
    rfl rfl rfl rfl (by simp) (by decide) (by simp) (by simp)

/-- Witness for C3: with a single non-matching outbox file and a 50 ms
timeout, the handshake times out normally within one poll interval of the
deadline. -/
theorem c3_approval_timeout_witness :
    (waitForApproval "p1" [⟨"1-x.json", ⟨"status", none, none, none, none⟩⟩] 50).1 =
      ⟨false, some "timeout", none⟩ ∧
    (waitForApproval "p1" [⟨"1-x.json", ⟨"status", none, none, none, none⟩⟩] 50).2.1 =
      [⟨"1-x.json", ⟨"status", none, none, none, none⟩⟩] ∧
    50 ≤ (waitForApproval "p1" [⟨"1-x.json", ⟨"status", none, none, none, none⟩⟩] 50).2.2 ∧
    (waitForApproval "p1" [⟨"1-x.json", ⟨"status", none, none, none, none⟩⟩] 50).2.2 <
      50 + approvalPollInterval ∧
    approvalDefaultTimeoutMs = 300000 :=
  c3_approval_timeout "p1" [⟨"1-x.json", ⟨"status", none, none, none, none⟩⟩] 50 (by decide)

/-- Claim C7: parsing the example document
`"# Foo\nIntro.\n## A\nUses (backtick)x/y.ts(backtick).\n## B\nNo files."`
yields title `"Foo"`, summary `"Intro."` (hence a summary containing
`"Intro."`), exactly two sections titled `A` then `B` in order, where
section A's files are `["x/y.ts"]` with a matching modify-type change
entry and section B's files are empty.  Quantified over the fresh-id
generator, which the result does not depend on. -/
theorem c7_plan_parsing_example (genId : Nat → String) :
    (parsePlanMarkdown genId "# Foo\nIntro.\n## A\nUses `x/y.ts`.\n## B\nNo files.").title = "Foo" ∧
    (parsePlanMarkdown genId "# Foo\nIntro.\n## A\nUses `x/y.ts`.\n## B\nNo files.").summary = "Intro." ∧
    (parsePlanMarkdown genId "# Foo\nIntro.\n## A\nUses `x/y.ts`.\n## B\nNo files.").sections.map
      (fun s => s.title) = ["A", "B"] ∧
    (parsePlanMarkdown genId "# Foo\nIntro.\n## A\nUses `x/y.ts`.\n## B\nNo files.").sections.map
      (fun s => s.files) = [["x/y.ts"], []] ∧
    (parsePlanMarkdown genId "# Foo\nIntro.\n## A\nUses `x/y.ts`.\n## B\nNo files.").sections.map
      (fun s => s.changes) = [[⟨"x/y.ts", "modify", ""⟩], []] ∧
    (parsePlanMarkdown genId "# Foo\nIntro.\n## A\nUses `x/y.ts`.\n## B\nNo files.").sections.map
      (fun s => s.order) = [0, 1] :=
  ⟨rfl, rfl, rfl, rfl, rfl, rfl⟩

/-- Claim C8 (code bug): the source's own comment says "Extract title from
first h1", and the claim says later level-1 headings do not change the
title, but the guard `!title.includes(':')` only freezes titles that
contain a colon.  On `"# Foo\n# Bar"` the parser returns title `"Bar"`,
not `"Foo"`: the second h1 overwrites the first.  The no-h1 default
`"Implementation Plan"` does hold. -/
theorem c8_title_last_h1_wins (genId : Nat → String) :
    (parsePlanMarkdown genId "# Foo\n# Bar").title = "Bar" ∧
    (parsePlanMarkdown genId "Just text, no heading.").title = "Implementation Plan" :=
  ⟨rfl, rfl⟩

/-- Claim C9 (counterexample): publishing the same Claude state value
(state `executing`, description `Writing file...`) twice in a row at
different clock milliseconds produces TWO observer events, not at most
one: `broadcastClaudeState` never skips a write (it performs no comparison
with the last broadcast) and stamps fresh `startedAt`/`updatedAt`
timestamps, so the two file contents differ and `readStateFile` fires on
both. -/
theorem c9_state_debounce_counterexample :
    observeEmits none
      [broadcastClaudeState 1 "executing" "Writing file..." none,
       broadcastClaudeState 2 "executing" "Writing file..." none] = 2 ∧
    ¬ (observeEmits none
      [broadcastClaudeState 1 "executing" "Writing file..." none,
       broadcastClaudeState 2 "executing" "Writing file..." none] ≤ 1) := by
  decide

/-- Claim C9 (amended): the observer side does debounce — reading the same
file content twice fires at most one event, so two publishes trigger at
most one event precisely when their written bytes coincide (same state,
description, progress AND clock value); but broadcasts of the same state
and description at different clock values produce different contents, and
there is no publisher-side skip. -/
theorem c9_state_debounce_amended (last : Option ClaudeStateData)
    (now now' : Nat) (st desc : String) (progress : Option String) :
    observeEmits last
      [broadcastClaudeState now st desc progress,
       broadcastClaudeState now st desc progress] ≤ 1 ∧
    (now ≠ now' →
      broadcastClaudeState now' st desc progress ≠
        broadcastClaudeState now st desc progress) := by
  constructor
  · by_cases h : some (broadcastClaudeState now st desc progress) = last
    · simp [observeEmits, readStateFile, h]
    · simp [observeEmits, readStateFile, h]
  · intro hne heq
    exact hne (congrArg ClaudeStateData.startedAt heq).symm

/-- Witness for the amended C9: same-millisecond duplicate publishes emit
at most once, and changing only the millisecond changes the content. -/
theorem c9_state_debounce_amended_witness :
    observeEmits none
      [broadcastClaudeState 1 "idle" "Ready" none,
       broadcastClaudeState 1 "idle" "Ready" none] ≤ 1 ∧
    broadcastClaudeState 2 "idle" "Ready" none ≠ broadcastClaudeState 1 "idle" "Ready" none :=
  ⟨(c9_state_debounce_amended none 1 2 "idle" "Ready" none).1,
   (c9_state_debounce_amended none 1 2 "idle" "Ready" none).2 (by decide)⟩

/-- `updateFirst` with a `filePath`-preserving mutation leaves the list of
tracked paths unchanged. -/
theorem updateFirst_map_path (fp : String) (g : FileChange → FileChange)
    (hg : ∀ c, (g c).filePath = c.filePath) :
    ∀ l : List FileChange,
      (updateFirst fp g l).map (fun c => c.filePath) = l.map (fun c => c.filePath)
  | [] => rfl
  | c :: cs => by
    by_cases h : c.filePath = fp
    · simp [updateFirst, h, hg c]
    · simp [updateFirst, h, updateFirst_map_path fp g hg cs]

/-- `updateFirst` rewrites exactly the entry `find?` located. -/
theorem updateFirst_find (fp : String) (g : FileChange → FileChange)
    (hg : ∀ c, (g c).filePath = c.filePath) :
    ∀ (l : List FileChange) (f : FileChange),
      l.find? (fun c => c.filePath == fp) = some f →
      (updateFirst fp g l).find? (fun c => c.filePath == fp) = some (g f)
  | [], f, h => by simp at h
  | c :: cs, f, h => by
    by_cases hc : c.filePath = fp
    · have hf : c = f := by simpa [List.find?_cons, hc] using h
      subst hf
      simp [updateFirst, hc, List.find?_cons, hg c]
    · have h' : cs.find? (fun c => c.filePath == fp) = some f := by
        simpa [List.find?_cons, hc] using h
      simp [updateFirst, hc, List.find?_cons,
        updateFirst_find fp g hg cs f h']

/-- Entries tracked under any other path are untouched by `updateFirst`. -/
theorem updateFirst_filter_other (fp q : String) (g : FileChange → FileChange)
    (hg : ∀ c, (g c).filePath = c.filePath) (hne : q ≠ fp) :
    ∀ l : List FileChange,
      (updateFirst fp g l).filter (fun c => c.filePath == q) =
        l.filter (fun c => c.filePath == q)
  | [] => rfl
  | c :: cs => by
    by_cases hc : c.filePath = fp
    · have h1 : ¬ (g c).filePath = q := by
        rw [hg c, hc]
        exact fun hq => hne hq.symm
      have h2 : ¬ c.filePath = q := by
        rw [hc]
        exact fun hq => hne hq.symm
      have h3 : ¬ fp = q := fun hq => hne hq.symm
      simp [updateFirst, hc, List.filter_cons, h1, h2, h3]
    · simp [updateFirst, hc, List.filter_cons,
        updateFirst_filter_other fp q g hg hne cs]

/-- `addFileChange` preserves the at-most-one-entry-per-path invariant. -/
theorem addFileChange_nodup (s : SessionState) (fp ct : String) (la lr : Nat)
    (now : String)
    (hnd : (s.changedFiles.map (fun c => c.filePath)).Nodup) :
    ((addFileChange s fp ct la lr now).changedFiles.map (fun c => c.filePath)).Nodup := by
  unfold addFileChange
  cases hfind : s.changedFiles.find? (fun f => f.filePath == fp) with
  | some f =>
    simpa [updateFirst_map_path fp (bumpChange la lr) (fun _ => rfl) s.changedFiles] using hnd
  | none =>
    have hnotin : fp ∉ s.changedFiles.map (fun c => c.filePath) := by
      intro hmem
      obtain ⟨c, hc, hcp⟩ := List.mem_map.mp hmem
      have := List.find?_eq_none.mp hfind c hc
      simp [hcp] at this
    simp [List.nodup_append, hnd, hnotin]

/-- The invariant holds after any sequence of calls from a fresh state. -/
theorem applyCalls_nodup : ∀ (calls : List ChangeCall) (s : SessionState),
    (s.changedFiles.map (fun c => c.filePath)).Nodup →
    ((applyCalls s calls).changedFiles.map (fun c => c.filePath)).Nodup
  | [], _, h => h
  | c :: calls, s, h =>
    applyCalls_nodup calls _
      (addFileChange_nodup s c.filePath c.changeType c.linesAdded c.linesRemoved c.now h)

/-- Claim C10: over any sequence of `addFileChange` calls from a fresh
session state, `changedFiles` keeps at most one entry per `filePath`; and
a call for an already-tracked path rewrites that entry in place — summing
`linesAdded`/`linesRemoved`, bumping `changeCount` via
`(changeCount || 1) + 1`, keeping `changeType` and `timestamp` — without
changing the tracked paths, the list length, or entries of other paths. -/
theorem c10_file_change_aggregation :
    (∀ (sid st : String) (calls : List ChangeCall),
      ((applyCalls (initialSessionState sid st) calls).changedFiles.map
        (fun c => c.filePath)).Nodup) ∧
    (∀ (s : SessionState) (fp ct : String) (la lr : Nat) (now : String) (f : FileChange),
      s.changedFiles.find? (fun c => c.filePath == fp) = some f →
      (addFileChange s fp ct la lr now).changedFiles.map (fun c => c.filePath) =
        s.changedFiles.map (fun c => c.filePath) ∧
      (addFileChange s fp ct la lr now).changedFiles.length = s.changedFiles.length ∧
      (addFileChange s fp ct la lr now).changedFiles.find? (fun c => c.filePath == fp) =
        some { f with
          linesAdded := f.linesAdded + la,
          linesRemoved := f.linesRemoved + lr,
          changeCount := (if f.changeCount = 0 then 1 else f.changeCount) + 1 } ∧
      ∀ q : String, q ≠ fp →
        (addFileChange s fp ct la lr now).changedFiles.filter (fun c => c.filePath == q) =
          s.changedFiles.filter (fun c => c.filePath == q)) := by
  constructor
  · intro sid st calls
    exact applyCalls_nodup calls (initialSessionState sid st) (by simp [initialSessionState])
  · intro s fp ct la lr now f hfind
    have hch : (addFileChange s fp ct la lr now).changedFiles =
        updateFirst fp (bumpChange la lr) s.changedFiles := by
      unfold addFileChange
      rw [hfind]
    have hmap := updateFirst_map_path fp (bumpChange la lr) (fun _ => rfl) s.changedFiles
    refine ⟨by rw [hch]; exact hmap, ?_, ?_, ?_⟩
    · rw [hch]
      simpa using congrArg List.length hmap
    · rw [hch]
      exact updateFirst_find fp (bumpChange la lr) (fun _ => rfl) s.changedFiles f hfind
    · intro q hq
      rw [hch]
      exact updateFirst_filter_other fp q (bumpChange la lr) (fun _ => rfl) hq s.changedFiles

/-- Witness for C10: two calls for the same path `a.ts` from a fresh state
keep a single entry, and the aggregation facts hold at a concrete tracked
state. -/
theorem c10_file_change_aggregation_witness :
    ((applyCalls (initialSessionState "s1" "t0")
      [⟨"a.ts", "create", 3, 0, "t1"⟩, ⟨"a.ts", "modify", 2, 1, "t2"⟩]).changedFiles.map
        (fun c => c.filePath)).Nodup ∧
    (addFileChange ⟨"s1", "t0", [⟨"a.ts", "create", 3, 0, 1, "t1"⟩], []⟩
        "a.ts" "modify" 2 1 "t2").changedFiles.map (fun c => c.filePath) =
      ([⟨"a.ts", "create", 3, 0, 1, "t1"⟩] : List FileChange).map (fun c => c.filePath) ∧
    (addFileChange ⟨"s1", "t0", [⟨"a.ts", "create", 3, 0, 1, "t1"⟩], []⟩
        "a.ts" "modify" 2 1 "t2").changedFiles.length =
      ([⟨"a.ts", "create", 3, 0, 1, "t1"⟩] : List FileChange).length ∧
    (addFileChange ⟨"s1", "t0", [⟨"a.ts", "create", 3, 0, 1, "t1"⟩], []⟩
        "a.ts" "modify" 2 1 "t2").changedFiles.find? (fun c => c.filePath == "a.ts") =
      some { filePath := "a.ts", changeType := "create", linesAdded := 3 + 2,
             linesRemoved := 0 + 1, changeCount := (if (1 : Nat) = 0 then 1 else 1) + 1,
             timestamp := "t1" } :=
  ⟨c10_file_change_aggregation.1 "s1" "t0"
      [⟨"a.ts", "create", 3, 0, "t1"⟩, ⟨"a.ts", "modify", 2, 1, "t2"⟩],
   (c10_file_change_aggregation.2 ⟨"s1", "t0", [⟨"a.ts", "create", 3, 0, 1, "t1"⟩], []⟩
      "a.ts" "modify" 2 1 "t2" ⟨"a.ts", "create", 3, 0, 1, "t1"⟩ (by decide)).1,
   (c10_file_change_aggregation.2 ⟨"s1", "t0", [⟨"a.ts", "create", 3, 0, 1, "t1"⟩], []⟩
      "a.ts" "modify" 2 1 "t2" ⟨"a.ts", "create", 3, 0, 1, "t1"⟩ (by decide)).2.1,
   (c10_file_change_aggregation.2 ⟨"s1", "t0", [⟨"a.ts", "create", 3, 0, 1, "t1"⟩], []⟩
      "a.ts" "modify" 2 1 "t2" ⟨"a.ts", "create", 3, 0, 1, "t1"⟩ (by decide)).2.2.1⟩

/-- Claim C6: project-id resolution is deterministic and identical in both
processes.  For every MD5 digest function and every workspace path, the
bridge script's `generateProjectId` and the extension's `generateProjectId`
compute the same string, that string is exactly
`slug(basename(path)) ++ "-" ++ first-8-hex-chars-of-md5(path)` as the spec
states, and two calls with the same path trivially agree. -/
theorem c6_identity_determinism (md5hex : String → String) (p : String) :
    bridge_generateProjectId md5hex p = ipc_generateProjectId md5hex p ∧
    bridge_generateProjectId md5hex p = spec_projectId md5hex p ∧
    bridge_generateProjectId md5hex p = bridge_generateProjectId md5hex p := by
  refine ⟨rfl, rfl, rfl⟩
